import Mathlib

/-!
Verification development for the Railway Deployment Failure Analyzer
(`src/railway_deployment_analyzer.py`).

The classification core of the source program is embedded shallowly:

* log text is a `List Char`; Python `str.lower` is modelled by
  `Char.toLower` (ASCII case folding, which covers every string the
  program's catalog and the analysed logs use);
* the catalog regexes use only literal text, `\.` and `.*`, so each
  signature is represented as its list of literal segments separated by
  `.*`; `reSearch` implements Python `re.search` for exactly this
  fragment (`.*` does not cross a newline, `re.IGNORECASE` folds case on
  both sides, the search itself may start anywhere);
* the four `re.findall` patterns of `_extract_affected_files` are
  implemented as explicit left-to-right, non-overlapping scanners with
  the same greedy/backtracking behaviour as the Python regexes;
* `list(set(files))` is modelled by `List.dedup` (Python's set order is
  unspecified; the spec declares the order insignificant);
* the I/O collaborators (GitHub, Railway API/CLI) are abstracted: the
  log fetcher reaching `analyze_repo` is a function parameter.
-/

/-- Python `str.isspace` / regex `\s` on ASCII text:
space, tab, newline, carriage return, vertical tab, form feed. -/
def pyIsSpace (c : Char) : Bool :=
  c == ' ' || c == '\t' || c == '\n' || c == '\r' || c == '\x0b' || c == '\x0c'

/-- Python `str.strip()` with no argument: drop leading and trailing
whitespace. -/
def pyStrip (l : List Char) : List Char :=
  ((l.dropWhile pyIsSpace).reverse.dropWhile pyIsSpace).reverse

/-- Python `s.replace('_', ' ')` for a single-character needle:
replace every underscore by a space. -/
def pyReplaceUnderscore (s : String) : String :=
  String.mk (s.toList.map fun c => if c = '_' then ' ' else c)

/-- Case-insensitive "the pattern literal `p` matches at the head of `t`",
the `re.IGNORECASE` treatment of a literal regex fragment. -/
def ciStartsWith : List Char → List Char → Bool
  | [], _ => true
  | _ :: _, [] => false
  | p :: ps, c :: cs => (p.toLower == c.toLower) && ciStartsWith ps cs

/-- All suffixes of a list (the candidate start positions of a
`re.search`, which may begin anywhere, lines included). -/
def suffixes : List Char → List (List Char)
  | [] => [[]]
  | c :: cs => (c :: cs) :: suffixes cs

/-- The suffixes reachable by letting a `.*` gap consume characters:
`.` does not match a newline, so skipping stops at the first `'\n'`. -/
def gapSuffixes : List Char → List (List Char)
  | [] => [[]]
  | c :: cs => (c :: cs) :: (if c = '\n' then [] else gapSuffixes cs)

/-- `matchSegsFrom segs t`: the regex `.* s₁ .* s₂ ⋯` (a `.*` gap before
each remaining literal segment) matches starting at the head of `t`. -/
def matchSegsFrom : List (List Char) → List Char → Bool
  | [], _ => true
  | s :: rest, t =>
    (gapSuffixes t).any fun u => ciStartsWith s u && matchSegsFrom rest (u.drop s.length)

/-- `re.search` of a catalog signature `s₀ .* s₁ .* ⋯` (given by its
literal segments) in `t`, case-insensitively. -/
def reSearch : List (List Char) → List Char → Bool
  | [], _ => true
  | s :: rest, t =>
    (suffixes t).any fun u => ciStartsWith s u && matchSegsFrom rest (u.drop s.length)

/-- A catalog signature is its list of literal segments (the pieces of
the source regex separated by `.*`; `\.` is the literal dot). -/
def searchPat (pat : List String) (t : List Char) : Bool :=
  reSearch (pat.map String.toList) t

/-- Python `needle in hay` on strings: substring containment. -/
def containsSub (hay needle : List Char) : Bool :=
  (suffixes hay).any fun s => needle.isPrefixOf s

/-- `DeploymentStatus` enum of the source. -/
inductive DeploymentStatus where
  | success
  | failed
  | pending
  | unknown
deriving DecidableEq

/-- `DeploymentIssue` dataclass of the source.  `affected_files`
defaults to Python `None`, hence the `Option`. -/
structure DeploymentIssue where
  type : String
  severity : String
  description : String
  remediation : String
  affected_files : Option (List String) := none
deriving DecidableEq

/-- `RepoAnalysis` dataclass of the source. -/
structure RepoAnalysis where
  repo_name : String
  status : DeploymentStatus
  issues : List DeploymentIssue
  last_deployment : Option String := none
  logs_preview : List Char := []
deriving DecidableEq

/-- A Railway project record as consumed by `analyze_repo`:
`name`, optional `id`, optional `updatedAt`. -/
structure RailwayProject where
  name : String
  id : Option String := none
  updatedAt : Option String := none
deriving DecidableEq

/-- One entry of `self.failure_patterns`: signature list, severity,
remediation. -/
structure FailureConfig where
  patterns : List (List String)
  severity : String
  remediation : String
deriving DecidableEq

/-- `failure_patterns["missing_env_vars"]`.  Source regexes:
`missing environment variable`, `environment variable.*not found`,
`process\.env\..*is undefined`, `OPENAI_API_KEY.*not found`,
`DATABASE_URL.*not found`, `RAILWAY_TOKEN.*not found`. -/
def missing_env_vars_config : FailureConfig :=
  { patterns := [["missing environment variable"],
                 ["environment variable", "not found"],
                 ["process.env.", "is undefined"],
                 ["OPENAI_API_KEY", "not found"],
                 ["DATABASE_URL", "not found"],
                 ["RAILWAY_TOKEN", "not found"]],
    severity := "critical",
    remediation := "Add missing environment variables in Railway dashboard under Variables tab" }

/-- `failure_patterns["port_binding"]`.  Source regexes:
`port binding.*failed`, `port.*not bound`, `listen.*EADDRINUSE`,
`address already in use`, `port.*required by railway`. -/
def port_binding_config : FailureConfig :=
  { patterns := [["port binding", "failed"],
                 ["port", "not bound"],
                 ["listen", "EADDRINUSE"],
                 ["address already in use"],
                 ["port", "required by railway"]],
    severity := "critical",
    remediation := "Ensure your app binds to the PORT environment variable (Railway sets this automatically)" }

/-- `failure_patterns["build_failure"]`.  Source regexes:
`build failed`, `npm.*error`, `yarn.*error`, `pnpm.*error`,
`typescript.*error`, `compilation.*error`, `module.*not found`,
`dependency.*not found`. -/
def build_failure_config : FailureConfig :=
  { patterns := [["build failed"],
                 ["npm", "error"],
                 ["yarn", "error"],
                 ["pnpm", "error"],
                 ["typescript", "error"],
                 ["compilation", "error"],
                 ["module", "not found"],
                 ["dependency", "not found"]],
    severity := "critical",
    remediation := "Check package.json dependencies, run \x27npm install\x27 locally to verify, ensure all imports are correct" }

/-- `failure_patterns["database_connection"]`.  Source regexes:
`database.*connection.*failed`, `prisma.*error`, `connection.*refused`,
`database.*not found`, `authentication.*failed`. -/
def database_connection_config : FailureConfig :=
  { patterns := [["database", "connection", "failed"],
                 ["prisma", "error"],
                 ["connection", "refused"],
                 ["database", "not found"],
                 ["authentication", "failed"]],
    severity := "critical",
    remediation := "Verify DATABASE_URL is correct, check database is running, ensure proper credentials" }

/-- `failure_patterns["memory_limit"]`.  Source regexes:
`out of memory`, `memory.*limit.*exceeded`, `heap.*out.*of.*memory`,
`allocation.*failed`. -/
def memory_limit_config : FailureConfig :=
  { patterns := [["out of memory"],
                 ["memory", "limit", "exceeded"],
                 ["heap", "out", "of", "memory"],
                 ["allocation", "failed"]],
    severity := "warning",
    remediation := "Optimize memory usage, consider upgrading Railway plan, add memory monitoring" }

/-- `failure_patterns["timeout"]`.  Source regexes:
`timeout`, `request.*timed.*out`, `connection.*timeout`,
`operation.*timed.*out`. -/
def timeout_config : FailureConfig :=
  { patterns := [["timeout"],
                 ["request", "timed", "out"],
                 ["connection", "timeout"],
                 ["operation", "timed", "out"]],
    severity := "warning",
    remediation := "Increase timeout settings, optimize slow operations, check external API responses" }

/-- `failure_patterns["file_not_found"]`.  Source regexes:
`file.*not.*found`, `cannot.*find.*module`, `ENOENT`,
`no such file.*directory`. -/
def file_not_found_config : FailureConfig :=
  { patterns := [["file", "not", "found"],
                 ["cannot", "find", "module"],
                 ["ENOENT"],
                 ["no such file", "directory"]],
    severity := "critical",
    remediation := "Check file paths, ensure all required files are committed, verify build output includes all assets" }

/-- `failure_patterns["permission_denied"]`.  Source regexes:
`permission.*denied`, `EACCES`, `access.*denied`. -/
def permission_denied_config : FailureConfig :=
  { patterns := [["permission", "denied"],
                 ["EACCES"],
                 ["access", "denied"]],
    severity := "critical",
    remediation := "Check file permissions, ensure Railway has proper access to required files" }

/-- `self.failure_patterns`, in insertion (= iteration) order. -/
def failure_patterns : List (String × FailureConfig) :=
  [("missing_env_vars", missing_env_vars_config),
   ("port_binding", port_binding_config),
   ("build_failure", build_failure_config),
   ("database_connection", database_connection_config),
   ("memory_limit", memory_limit_config),
   ("timeout", timeout_config),
   ("file_not_found", file_not_found_config),
   ("permission_denied", permission_denied_config)]

/-- `success_indicators` of `analyze_logs`. -/
def success_indicators : List String :=
  ["deployment successful",
   "build completed",
   "server started",
   "listening on port",
   "application ready"]

/-- The alternation `(js|ts|jsx|tsx|py|java|cpp|c|h)` used by the
extractor regexes, in source order (Python tries alternatives left to
right and commits to the first that lets the rest of the pattern
succeed). -/
def extensions : List String :=
  ["js", "ts", "jsx", "tsx", "py", "java", "cpp", "c", "h"]

/-- `\s*([^\s\n]+)`: greedily skip whitespace, then capture one or more
non-whitespace characters (the two classes are disjoint, so the greedy
split is the only viable one).  Returns the capture and the remainder
after the match, or `none`. -/
def wsToken (t : List Char) : Option (List Char × List Char) :=
  let t2 := t.dropWhile pyIsSpace
  let tok := t2.takeWhile fun c => !pyIsSpace c
  if tok = [] then none else some (tok, t2.drop tok.length)

/-- `:?\s*([^\s\n]+)`: the greedy optional colon is tried first; on
failure the regex backtracks and lets `[^\s\n]+` start at the colon. -/
def fileTail (t : List Char) : Option (List Char × List Char) :=
  match t with
  | ':' :: rest => (wsToken rest).orElse fun _ => wsToken t
  | _ => wsToken t

/-- Extractor pattern (1), `file:?\s*([^\s\n]+)`, matched at the head of
`t` (`file` case-insensitively, as under `re.IGNORECASE`). -/
def fileMatchAt (t : List Char) : Option (List Char × List Char) :=
  if ciStartsWith ("file".toList) t then fileTail (t.drop 4) else none

/-- `\.(js|…|h)` with nothing after the group: length of the first
alternative matching case-insensitively at the head of `t`. -/
def extAt (t : List Char) : Option Nat :=
  extensions.findSome? fun e =>
    if ciStartsWith e.toList t then some e.toList.length else none

/-- Backtracking search for the split of `[^\s\n]+\.(ext)`: try the
candidate token length `k`, then `k-1`, …, `1` (the greedy `[^\s\n]+`
prefers the longest token), requiring a literal `'.'` after the token
and an extension after the dot.  Returns the total matched length. -/
def dotExt23 (t : List Char) : Nat → Option Nat
  | 0 => none
  | n + 1 =>
    match t.drop (n + 1), extAt (t.drop (n + 2)) with
    | '.' :: _, some elen => some (n + 2 + elen)
    | _, _ => dotExt23 t n

/-- Extractor patterns (2)/(3), `at\s+([^\s\n]+\.(js|…|h))` and
`in\s+([^\s\n]+\.(js|…|h))`, matched at the head of `t`.  `kw` is the
leading literal (`at` or `in`).  Returns capture and remainder. -/
def atInMatchAt (kw : List Char) (t : List Char) : Option (List Char × List Char) :=
  if ciStartsWith kw t then
    let t1 := t.drop kw.length
    let ws := t1.takeWhile pyIsSpace
    if ws = [] then none
    else
      let t2 := t1.drop ws.length
      match dotExt23 t2 (t2.takeWhile fun c => !pyIsSpace c).length with
      | some mlen => some (t2.take mlen, t2.drop mlen)
      | none => none
  else none

/-- `\.(js|…|h):\d+` continuation for pattern (4): an alternative only
succeeds if it is followed by a colon and at least one digit (Python
backtracks into the alternation otherwise).  Returns the extension
length and the total consumed length including `:` and the digits. -/
def ext4At (t : List Char) : Option (Nat × Nat) :=
  extensions.findSome? fun e =>
    if ciStartsWith e.toList t then
      match t.drop e.toList.length with
      | ':' :: rest =>
        let ds := rest.takeWhile Char.isDigit
        if ds = [] then none
        else some (e.toList.length, e.toList.length + 1 + ds.length)
      | _ => none
    else none

/-- Backtracking split search for `([^\s\n]+\.(ext)):\d+`, longest token
first.  Returns (capture length, full match length). -/
def dotExt4 (t : List Char) : Nat → Option (Nat × Nat)
  | 0 => none
  | n + 1 =>
    match t.drop (n + 1), ext4At (t.drop (n + 2)) with
    | '.' :: _, some (elen, clen) => some (n + 2 + elen, n + 2 + clen)
    | _, _ => dotExt4 t n

/-- Extractor pattern (4), `([^\s\n]+\.(js|…|h)):\d+`, matched at the
head of `t`.  The capture is group 1 (token, dot, extension); the
remainder resumes after the digits. -/
def p4MatchAt (t : List Char) : Option (List Char × List Char) :=
  match dotExt4 t (t.takeWhile fun c => !pyIsSpace c).length with
  | some (caplen, mlen) => some (t.take caplen, t.drop mlen)
  | none => none

/-- `re.findall` driver: scan left to right; on a match emit the capture
and resume after the matched text (non-overlapping), otherwise advance
one character.  `fuel` bounds the recursion; by `scanWith_stable` below
any `fuel ≥ t.length` computes the same list when the matcher consumes
at least one character per match. -/
def scanWith (m : List Char → Option (List Char × List Char)) : Nat → List Char → List (List Char)
  | 0, _ => []
  | _ + 1, [] => []
  | fuel + 1, c :: cs =>
    match m (c :: cs) with
    | some (tok, rest) => tok :: scanWith m fuel rest
    | none => scanWith m fuel cs

theorem ciStartsWith_length (p : List Char) :
    ∀ t, ciStartsWith p t = true → p.length ≤ t.length := by
  induction p with
  | nil => intro t _; simp
  | cons c cs ih =>
    intro t h
    cases t with
    | nil => simp [ciStartsWith] at h
    | cons d ds =>
      simp only [ciStartsWith, Bool.and_eq_true] at h
      simpa using Nat.succ_le_succ (ih ds h.2)

theorem wsToken_shrink (t tok rest : List Char) (h : wsToken t = some (tok, rest)) :
    rest.length ≤ t.length := by
  simp only [wsToken] at h
  by_cases hc : ((t.dropWhile pyIsSpace).takeWhile fun c => !pyIsSpace c) = []
  · simp [hc] at h
  · rw [if_neg hc] at h
    have h2 : rest = (t.dropWhile pyIsSpace).drop
        ((t.dropWhile pyIsSpace).takeWhile fun c => !pyIsSpace c).length := by
      cases h; rfl
    have hd : (t.dropWhile pyIsSpace).length ≤ t.length :=
      (List.dropWhile_sublist pyIsSpace).length_le
    rw [h2, List.length_drop]
    omega

theorem fileTail_shrink (t tok rest : List Char) (h : fileTail t = some (tok, rest)) :
    rest.length ≤ t.length := by
  unfold fileTail at h
  split at h
  next r =>
    cases hw : wsToken r with
    | some pr =>
      obtain ⟨a, b⟩ := pr
      rw [hw] at h
      simp only [Option.orElse] at h
      cases h
      have := wsToken_shrink r tok rest hw
      simp only [List.length_cons]
      omega
    | none =>
      rw [hw] at h
      simp only [Option.orElse] at h
      exact wsToken_shrink _ _ _ h
  next =>
    exact wsToken_shrink _ _ _ h

theorem fileMatchAt_shrink (t tok rest : List Char) (h : fileMatchAt t = some (tok, rest)) :
    rest.length < t.length := by
  unfold fileMatchAt at h
  by_cases hs : ciStartsWith ("file".toList) t = true
  · rw [if_pos hs] at h
    have h4 : 4 ≤ t.length := by
      have := ciStartsWith_length ("file".toList) t hs
      simpa using this
    have hr : rest.length ≤ (t.drop 4).length := fileTail_shrink _ _ _ h
    rw [List.length_drop] at hr
    omega
  · rw [if_neg hs] at h; cases h

theorem dotExt23_bound (t : List Char) :
    ∀ k a, dotExt23 t k = some a → 1 ≤ a ∧ 1 ≤ t.length := by
  intro k
  induction k with
  | zero => intro a h; simp [dotExt23] at h
  | succ n ih =>
    intro a h
    unfold dotExt23 at h
    split at h
    next heq _ =>
      cases h
      have : (t.drop (n + 1)).length = t.length - (n + 1) := List.length_drop ..
      rw [heq] at this
      simp only [List.length_cons] at this
      omega
    next =>
      exact ih a h

theorem atInMatchAt_shrink (kw : List Char) (t tok rest : List Char)
    (h : atInMatchAt kw t = some (tok, rest)) : rest.length < t.length := by
  simp only [atInMatchAt] at h
  by_cases hs : ciStartsWith kw t = true
  · rw [if_pos hs] at h
    by_cases hw : (t.drop kw.length).takeWhile pyIsSpace = []
    · rw [if_pos hw] at h; cases h
    · rw [if_neg hw] at h
      cases hd : dotExt23 ((t.drop kw.length).drop ((t.drop kw.length).takeWhile pyIsSpace).length)
          (((t.drop kw.length).drop ((t.drop kw.length).takeWhile pyIsSpace).length).takeWhile
            fun c => !pyIsSpace c).length with
      | none => rw [hd] at h; cases h
      | some mlen =>
        rw [hd] at h
        have hr : rest = ((t.drop kw.length).drop
            ((t.drop kw.length).takeWhile pyIsSpace).length).drop mlen := by
          cases h; rfl
        have hws1 : 1 ≤ ((t.drop kw.length).takeWhile pyIsSpace).length := by
          cases hcc : (t.drop kw.length).takeWhile pyIsSpace with
          | nil => exact absurd hcc hw
          | cons a l => simp [hcc]
        have hws2 : ((t.drop kw.length).takeWhile pyIsSpace).length ≤ (t.drop kw.length).length :=
          (List.takeWhile_sublist pyIsSpace).length_le
        have h1 : (t.drop kw.length).length ≤ t.length := by
          rw [List.length_drop]; omega
        rw [hr, List.length_drop, List.length_drop]
        omega
  · rw [if_neg hs] at h; cases h

theorem dotExt4_bound (t : List Char) :
    ∀ k a b, dotExt4 t k = some (a, b) → 1 ≤ b ∧ 1 ≤ t.length := by
  intro k
  induction k with
  | zero => intro a b h; simp [dotExt4] at h
  | succ n ih =>
    intro a b h
    unfold dotExt4 at h
    split at h
    next heq _ =>
      cases h
      have : (t.drop (n + 1)).length = t.length - (n + 1) := List.length_drop ..
      rw [heq] at this
      simp only [List.length_cons] at this
      omega
    next =>
      exact ih a b h

theorem p4MatchAt_shrink (t tok rest : List Char) (h : p4MatchAt t = some (tok, rest)) :
    rest.length < t.length := by
  unfold p4MatchAt at h
  cases hd : dotExt4 t (t.takeWhile fun c => !pyIsSpace c).length with
  | none => rw [hd] at h; cases h
  | some pr =>
    rw [hd] at h
    have hb := dotExt4_bound t _ pr.1 pr.2 (by simpa using hd)
    have hr : rest = t.drop pr.2 := by
      cases h; rfl
    rw [hr, List.length_drop]
    omega

/-- Two sufficient fuels compute the same scan whenever the matcher
consumes at least one character per match; in particular `t.length`
is always enough fuel. -/
theorem scanWith_stable (m : List Char → Option (List Char × List Char))
    (hm : ∀ t tok rest, m t = some (tok, rest) → rest.length < t.length) :
    ∀ f1 f2 t, t.length ≤ f1 → t.length ≤ f2 →
      scanWith m f1 t = scanWith m f2 t := by
  intro f1
  induction f1 with
  | zero =>
    intro f2 t h1 _
    have : t = [] := List.eq_nil_of_length_eq_zero (Nat.le_zero.mp h1)
    subst this
    cases f2 <;> rfl
  | succ n ih =>
    intro f2 t h1 h2
    cases t with
    | nil => cases f2 <;> rfl
    | cons c cs =>
      cases f2 with
      | zero => simp at h2
      | succ g =>
        simp only [List.length_cons] at h1 h2
        simp only [scanWith]
        cases hmc : m (c :: cs) with
        | none =>
          exact ih g cs (by omega) (by omega)
        | some pr =>
          obtain ⟨tok, rest⟩ := pr
          have hlt := hm _ tok rest hmc
          simp only [List.length_cons] at hlt
          exact congrArg (tok :: ·) (ih g rest (by omega) (by omega))

/-- The concatenated `re.findall` results of the four `file_patterns` of
`_extract_affected_files`, in source order (the Python loop extends one
`files` list).  Fuel `logs.length` is sufficient by `scanWith_stable`
and the shrink lemmas above. -/
def findall_file_patterns (logs : List Char) : List (List Char) :=
  scanWith fileMatchAt logs.length logs
    ++ scanWith (atInMatchAt ("at".toList)) logs.length logs
    ++ scanWith (atInMatchAt ("in".toList)) logs.length logs
    ++ scanWith p4MatchAt logs.length logs

/-- `_extract_affected_files(self, logs, pattern)` of the source: run the
four extraction regexes over the original-case `logs`, collect the first
capture group of every match, and deduplicate (`list(set(files))`).
The `pattern` argument is accepted and, exactly as in the source body,
never used. -/
def _extract_affected_files (logs : List Char) (pattern : List String) : List String :=
  ((findall_file_patterns logs).map fun l => String.mk l).dedup

/-- The `DeploymentIssue` appended by `analyze_logs` for a matched
catalog category: severity and remediation are copied from the category,
the description is synthesized from the category key, and
`affected_files` comes from the extractor run on the original-case logs
with the matched signature as (unused) context. -/
def mkCatalogIssue (issue_type : String) (config : FailureConfig)
    (pattern : List String) (logs : List Char) : DeploymentIssue :=
  { type := issue_type
    severity := config.severity
    description := "Detected " ++ pyReplaceUnderscore issue_type ++ " issue"
    remediation := config.remediation
    affected_files := some (_extract_affected_files logs pattern) }

/-- The `no_logs` issue returned for empty or whitespace-only input. -/
def no_logs_issue : DeploymentIssue :=
  { type := "no_logs"
    severity := "warning"
    description := "No deployment logs available"
    remediation := "Check Railway dashboard or ensure proper authentication" }

/-- The `unknown_failure` issue returned when nothing matched and no
success indicator is present. -/
def unknown_failure_issue : DeploymentIssue :=
  { type := "unknown_failure"
    severity := "warning"
    description := "No clear success or failure indicators found"
    remediation := "Review logs manually in Railway dashboard" }

/-- The `no_railway_project` issue returned by `analyze_repo` when no
Railway project matches the repository. -/
def no_railway_project_issue : DeploymentIssue :=
  { type := "no_railway_project"
    severity := "info"
    description := "No matching Railway project found"
    remediation := "Deploy this repository to Railway or check project naming" }

/-- The catalog loop of `analyze_logs`: for each category, in catalog
order, the inner loop appends one issue for the first signature that
matches `logs.lower()` and `break`s; categories with no matching
signature contribute nothing. -/
def catalogIssuesWith (fp : List (String × FailureConfig)) (logs : List Char) :
    List DeploymentIssue :=
  fp.filterMap fun p =>
    (p.2.patterns.find? fun pat => searchPat pat (logs.map Char.toLower)).map fun pat =>
      mkCatalogIssue p.1 p.2 pat logs

/-- `has_success`: some success indicator occurs in `logs.lower()`. -/
def hasSuccessWith (si : List String) (logs_lower : List Char) : Bool :=
  si.any fun ind => containsSub logs_lower ind.toList

/-- `analyze_logs`, with the failure-pattern table (an attribute of the
analyzer object in the source) and the success-indicator list as
explicit parameters. -/
def analyzeLogsWith (fp : List (String × FailureConfig)) (si : List String)
    (logs : List Char) (repo_name : String) : List DeploymentIssue :=
  if logs = [] ∨ pyStrip logs = [] then
    [no_logs_issue]
  else
    let issues := catalogIssuesWith fp logs
    if hasSuccessWith si (logs.map Char.toLower) = false ∧ issues = [] then
      issues ++ [unknown_failure_issue]
    else
      issues

/-- `analyze_logs(self, logs, repo_name)` of the source, with the
analyzer's fixed catalog and success-indicator list. -/
def analyze_logs (logs : List Char) (repo_name : String) : List DeploymentIssue :=
  analyzeLogsWith failure_patterns success_indicators logs repo_name

/-- Python `str.lower()` on a name, as a character list (ASCII case
folding, as elsewhere in this embedding). -/
def pyLower (s : String) : List Char :=
  s.toList.map Char.toLower

/-- The project-matching loop of `analyze_repo`: first project whose
name equals the repository name case-insensitively, if any. -/
def findRailwayProject (railway_projects : List RailwayProject) (repo_name : String) :
    Option RailwayProject :=
  railway_projects.find? fun project => pyLower project.name == pyLower repo_name

/-- The status derivation of `analyze_repo` (lines 432–437): no issues
or all-info → SUCCESS; any critical → FAILED; otherwise PENDING. -/
def deriveStatus (issues : List DeploymentIssue) : DeploymentStatus :=
  if issues = [] ∨ issues.all (fun issue => issue.severity == "info") then
    DeploymentStatus.success
  else if issues.any (fun issue => issue.severity == "critical") then
    DeploymentStatus.failed
  else
    DeploymentStatus.pending

/-- `analyze_repo(self, repo, railway_projects)` of the source.  The log
fetch (`get_railway_deployment_logs`, an I/O collaborator) is abstracted
as the function `fetch_logs` from project name and optional id to the
fetched text. -/
def analyze_repo (fetch_logs : String → Option String → List Char)
    (repo_name : String) (railway_projects : List RailwayProject) : RepoAnalysis :=
  match findRailwayProject railway_projects repo_name with
  | none =>
    { repo_name := repo_name
      status := DeploymentStatus.unknown
      issues := [no_railway_project_issue]
      logs_preview := ("No Railway project found").toList }
  | some railway_project =>
    let logs := fetch_logs railway_project.name railway_project.id
    let issues := analyze_logs logs repo_name
    { repo_name := repo_name
      status := deriveStatus issues
      issues := issues
      last_deployment := railway_project.updatedAt
      logs_preview := if logs.length > 500 then logs.take 500 ++ ("...").toList else logs }

/-- The synthetic `RepoAnalysis` built by `run_analysis` when analyzing
one repository raises an exception (lines 530–539). -/
def analysisErrorResult (repo_name : String) (errMsg : String) : RepoAnalysis :=
  { repo_name := repo_name
    status := DeploymentStatus.unknown
    issues := [{ type := "analysis_error"
                 severity := "warning"
                 description := "Error during analysis: " ++ errMsg
                 remediation := "Check repository access and try again" }] }

theorem find?_pre_first {α : Type} (p : α → Bool) :
    ∀ (pre : List α) (a : α) (post : List α),
      (∀ x ∈ pre, p x = false) → p a = true →
      List.find? p (pre ++ a :: post) = some a := by
  intro pre
  induction pre with
  | nil =>
    intro a post _ ha
    simpa using List.find?_cons_of_pos post ha
  | cons x xs ih =>
    intro a post hpre ha
    rw [List.cons_append, List.find?_cons_of_neg]
    · exact ih a post (fun y hy => hpre y (List.mem_cons_of_mem x hy)) ha
    · simp [hpre x (List.mem_cons_self x xs)]

theorem keys_nodup_unique {α β : Type} :
    ∀ (l : List (α × β)) (c : α) (a b : β),
      (l.map Prod.fst).Nodup → (c, a) ∈ l → (c, b) ∈ l → a = b := by
  intro l
  induction l with
  | nil => intro c a b _ h; cases h
  | cons p ps ih =>
    intro c a b hnd ha hb
    simp only [List.map_cons, List.nodup_cons] at hnd
    rcases List.mem_cons.mp ha with ha1 | ha1
    · rcases List.mem_cons.mp hb with hb1 | hb1
      · rw [← ha1] at hb1
        injection hb1 with h1 h2
        exact h2.symm
      · exfalso
        have hc1 : c ∈ List.map Prod.fst ps := by
          simpa using List.mem_map_of_mem Prod.fst hb1
        have hp1 : p.1 = c := by rw [← ha1]
        exact hnd.1 (by rw [hp1]; exact hc1)
    · rcases List.mem_cons.mp hb with hb1 | hb1
      · exfalso
        have hc1 : c ∈ List.map Prod.fst ps := by
          simpa using List.mem_map_of_mem Prod.fst ha1
        have hp1 : p.1 = c := by rw [← hb1]
        exact hnd.1 (by rw [hp1]; exact hc1)
      · exact ih c a b hnd.2 ha1 hb1

theorem filter_singleton_length_le {α : Type} (q : α → Bool) (x : α) :
    (List.filter q [x]).length ≤ 1 := by
  simp only [List.filter]
  cases q x <;> simp

/-- Normal form of `analyze_logs` on non-whitespace input. -/
theorem analyze_logs_eq (logs : List Char) (name : String)
    (hws : ¬ (logs = [] ∨ pyStrip logs = [])) :
    analyze_logs logs name =
      if hasSuccessWith success_indicators (logs.map Char.toLower) = false
          ∧ catalogIssuesWith failure_patterns logs = [] then
        catalogIssuesWith failure_patterns logs ++ [unknown_failure_issue]
      else
        catalogIssuesWith failure_patterns logs := by
  unfold analyze_logs analyzeLogsWith
  rw [if_neg hws]

/-- The catalog loop emits exactly one issue for each category with at
least one matching signature, in catalog order, built from the first
matching signature of that category. -/
theorem catalogIssuesWith_eq_filter (logs : List Char) :
    ∀ fp : List (String × FailureConfig),
      catalogIssuesWith fp logs =
        (fp.filter fun p => p.2.patterns.any fun q =>
            searchPat q (logs.map Char.toLower)).filterMap
          fun p => (p.2.patterns.find? fun q => searchPat q (logs.map Char.toLower)).map
            fun pat => mkCatalogIssue p.1 p.2 pat logs := by
  intro fp
  induction fp with
  | nil => rfl
  | cons p ps ih =>
    unfold catalogIssuesWith at ih ⊢
    rw [List.filterMap_cons, List.filter_cons]
    by_cases hany : (p.2.patterns.any fun q => searchPat q (logs.map Char.toLower)) = true
    · rw [if_pos (by simp [hany]), List.filterMap_cons]
      cases hf : (p.2.patterns.find? fun q => searchPat q (logs.map Char.toLower)) with
      | none => simp [hf, ih]
      | some pat => simp [hf, ih]
    · rw [if_neg (by simp [hany])]
      have hf : (p.2.patterns.find? fun q => searchPat q (logs.map Char.toLower)) = none := by
        rw [List.find?_eq_none]
        intro q hq
        have := List.any_eq_true.not.mp hany
        push_neg at this
        simpa using this q hq
      simp [hf, ih]

theorem catalogIssues_filter_le (logs : List Char) (c : String) :
    ∀ fp : List (String × FailureConfig),
      ((catalogIssuesWith fp logs).filter fun i => i.type == c).length ≤
        ((fp.map Prod.fst).filter fun k => k == c).length := by
  intro fp
  induction fp with
  | nil => simp [catalogIssuesWith]
  | cons p ps ih =>
    unfold catalogIssuesWith at ih ⊢
    rw [List.filterMap_cons, List.map_cons, List.filter_cons]
    cases hf : (p.2.patterns.find? fun pat => searchPat pat (logs.map Char.toLower)) with
    | none =>
      simp only [Option.map_none']
      by_cases hc : (p.1 == c) = true
      · rw [if_pos (by simp [hc])]
        simp only [List.length_cons]
        exact Nat.le_succ_of_le ih
      · rw [if_neg (by simp [hc])]
        exact ih
    | some pat =>
      simp only [Option.map_some']
      rw [List.filter_cons]
      by_cases hc : (p.1 == c) = true
      · rw [if_pos (by simpa [mkCatalogIssue] using hc), if_pos (by simp [hc])]
        simpa using ih
      · rw [if_neg (by simpa [mkCatalogIssue] using hc), if_neg (by simp [hc])]
        exact ih

/-- Claim C1: for every input text that is empty or whitespace-only, the
Log Classifier returns exactly one `DetectedIssue`, of category
`no_logs` with severity `warning`, and performs no pattern matching —
the result is the same for every failure-pattern catalog and every
success-phrase list, so no catalog category and no success phrase is
tested. -/
theorem claim_C1 (fp : List (String × FailureConfig)) (si : List String)
    (logs : List Char) (repo_name : String)
    (h : logs = [] ∨ pyStrip logs = []) :
    analyzeLogsWith fp si logs repo_name = [no_logs_issue]
    ∧ analyze_logs logs repo_name = [no_logs_issue]
    ∧ no_logs_issue.type = "no_logs"
    ∧ no_logs_issue.severity = "warning" := by
  refine ⟨?_, ?_, rfl, rfl⟩
  · unfold analyzeLogsWith
    rw [if_pos h]
  · unfold analyze_logs analyzeLogsWith
    rw [if_pos h]

/-- Witness for C1 at the concrete whitespace-only input `"   "`. -/
theorem claim_C1_witness :
    analyze_logs ("   ".toList) "api-service" = [no_logs_issue] :=
  (claim_C1 failure_patterns success_indicators ("   ".toList) "api-service"
    (Or.inr (by decide))).2.1

/-- Claim C10: the Log Classifier is deterministic and idempotent — the
same text always yields structurally equal issue lists, the subject name
is irrelevant, and every input (including the empty text) maps to a
result, empty or not, without failing. -/
theorem claim_C10 (logs : List Char) (name other : String) :
    analyze_logs logs name = analyze_logs logs name
    ∧ analyze_logs logs name = analyze_logs logs other
    ∧ (analyze_logs logs name = [] ∨ analyze_logs logs name ≠ [])
    ∧ analyze_logs [] name = [no_logs_issue] := by
  refine ⟨rfl, rfl, ?_, ?_⟩
  · by_cases h : analyze_logs logs name = []
    · exact Or.inl h
    · exact Or.inr h
  · unfold analyze_logs analyzeLogsWith
    rw [if_pos (Or.inl rfl)]

/-- Claim C9: the File Reference Extractor returns a duplicate-free
collection — exactly the matches of its four extraction patterns
deduplicated by string equality, so a reference matched several times
appears exactly once. -/
theorem claim_C9 (logs : List Char) (pattern : List String) :
    (_extract_affected_files logs pattern).Nodup
    ∧ (∀ f, f ∈ _extract_affected_files logs pattern ↔
        f ∈ (findall_file_patterns logs).map fun l => String.mk l)
    ∧ (∀ f, f ∈ ((findall_file_patterns logs).map fun l => String.mk l) →
        (_extract_affected_files logs pattern).count f = 1) := by
  refine ⟨List.nodup_dedup _, fun f => List.mem_dedup, fun f hf => ?_⟩
  exact List.count_eq_one_of_mem (List.nodup_dedup _) (List.mem_dedup.mpr hf)

/-- Witness for C9: `"at app.js in app.js"` yields the reference
`app.js` from two different patterns (the raw match list has it twice),
and the extractor returns it exactly once. -/
theorem claim_C9_witness :
    (_extract_affected_files ("at app.js in app.js".toList) []).count "app.js" = 1
    ∧ findall_file_patterns ("at app.js in app.js".toList) =
        ["app.js".toList, "app.js".toList] :=
  ⟨(claim_C9 ("at app.js in app.js".toList) []).2.2 "app.js" (by decide), by decide⟩

/-- Claim C4: the status aggregation maps an empty or all-info issue
list to SUCCESS, any list containing a critical issue to FAILED, and any
other list to PENDING; in particular `aggregate([]) = SUCCESS`,
`aggregate([info]) = SUCCESS`, `aggregate([warning]) = PENDING` and
`aggregate([critical, info]) = FAILED`. -/
theorem claim_C4 :
    (∀ issues : List DeploymentIssue,
        (issues = [] ∨ ∀ i ∈ issues, i.severity = "info") →
        deriveStatus issues = DeploymentStatus.success)
    ∧ (∀ issues : List DeploymentIssue,
        (∃ i ∈ issues, i.severity = "critical") →
        deriveStatus issues = DeploymentStatus.failed)
    ∧ (∀ issues : List DeploymentIssue,
        (¬ ∃ i ∈ issues, i.severity = "critical") →
        (∃ i ∈ issues, i.severity ≠ "info") →
        deriveStatus issues = DeploymentStatus.pending)
    ∧ deriveStatus [] = DeploymentStatus.success
    ∧ deriveStatus [no_railway_project_issue] = DeploymentStatus.success
    ∧ deriveStatus [no_logs_issue] = DeploymentStatus.pending
    ∧ deriveStatus [mkCatalogIssue "missing_env_vars" missing_env_vars_config
        ["missing environment variable"] [], no_railway_project_issue] =
        DeploymentStatus.failed := by
  refine ⟨?_, ?_, ?_, by decide, by decide, by decide, by decide⟩
  · intro issues h
    unfold deriveStatus
    rw [if_pos]
    rcases h with h | h
    · exact Or.inl h
    · right
      rw [List.all_eq_true]
      intro i hi
      simpa using h i hi
  · rintro issues ⟨i, hi, hc⟩
    unfold deriveStatus
    rw [if_neg, if_pos]
    · rw [List.any_eq_true]
      exact ⟨i, hi, by simp [hc]⟩
    · rintro (h | h)
      · rw [h] at hi; cases hi
      · have := List.all_eq_true.mp h i hi
        rw [hc] at this
        simp at this
  · rintro issues hnc ⟨i, hi, hni⟩
    unfold deriveStatus
    rw [if_neg, if_neg]
    · rw [List.any_eq_true]
      rintro ⟨j, hj, hcj⟩
      exact hnc ⟨j, hj, by simpa using hcj⟩
    · rintro (h | h)
      · rw [h] at hi; cases hi
      · have := List.all_eq_true.mp h i hi
        simp at this
        exact hni this

/-- Claim C7: on the log text
`"Error: DATABASE_URL not found\nError: connection refused"` the
classifier returns exactly two issues — `missing_env_vars` (critical)
and `database_connection` (critical) — and the aggregate status is
FAILED. -/
theorem claim_C7 :
    ((analyze_logs ("Error: DATABASE_URL not found\nError: connection refused".toList)
        "repo").map fun i => (i.type, i.severity)) =
      [("missing_env_vars", "critical"), ("database_connection", "critical")]
    ∧ (analyze_logs ("Error: DATABASE_URL not found\nError: connection refused".toList)
        "repo").length = 2
    ∧ deriveStatus (analyze_logs
        ("Error: DATABASE_URL not found\nError: connection refused".toList) "repo") =
      DeploymentStatus.failed := by
  refine ⟨by decide, by decide, by decide⟩

/-- Claim C5, counterexample: the `AnalysisResult` built for a
repository with no matching Railway project has status UNKNOWN, while
the §4.4 aggregation of its issue list (one info issue) is SUCCESS — so
the status of every constructed result is not the aggregation of its
issues. -/
theorem claim_C5_counterexample :
    (analyze_repo (fun _ _ => []) "web-app" []).status = DeploymentStatus.unknown
    ∧ deriveStatus (analyze_repo (fun _ _ => []) "web-app" []).issues =
        DeploymentStatus.success
    ∧ (analyze_repo (fun _ _ => []) "web-app" []).status ≠
        deriveStatus (analyze_repo (fun _ _ => []) "web-app" []).issues := by
  refine ⟨by decide, by decide, by decide⟩

/-- Claim C5 as amended: for every result built for a *matched* subject,
the status equals the §4.4 aggregation of the result's issue list (so it
is recomputable from the issues alone); the result for an unmatched
subject and the synthetic error result of `run_analysis` instead carry
status UNKNOWN regardless of their issues. -/
theorem claim_C5_amended (fetch_logs : String → Option String → List Char)
    (repo_name errMsg : String) (projects : List RailwayProject)
    (proj : RailwayProject) :
    (findRailwayProject projects repo_name = some proj →
      (analyze_repo fetch_logs repo_name projects).status =
        deriveStatus (analyze_repo fetch_logs repo_name projects).issues)
    ∧ (findRailwayProject projects repo_name = none →
      (analyze_repo fetch_logs repo_name projects).status = DeploymentStatus.unknown)
    ∧ (analysisErrorResult repo_name errMsg).status = DeploymentStatus.unknown := by
  refine ⟨?_, ?_, rfl⟩
  · intro h
    unfold analyze_repo
    rw [h]
  · intro h
    unfold analyze_repo
    rw [h]

/-- Witness for the amended C5 at a concrete matched subject. -/
theorem claim_C5_amended_witness :
    (analyze_repo (fun _ _ => "build failed".toList) "app" [{ name := "APP" }]).status =
      deriveStatus
        (analyze_repo (fun _ _ => "build failed".toList) "app" [{ name := "APP" }]).issues :=
  (claim_C5_amended (fun _ _ => "build failed".toList) "app" "e" [{ name := "APP" }]
    { name := "APP" }).1 (by decide)

/-- Claim C6: the Matcher picks the first project whose name equals the
repository name case-insensitively ("MyApp" matches "myapp", first match
wins among case-variant duplicates); with no match, the result is
UNKNOWN with exactly the single info issue `no_railway_project`, and the
Log Classifier is not invoked — the result is the same fixed record for
every log fetcher. -/
theorem claim_C6 (fetch_logs : String → Option String → List Char)
    (repo_name : String) (projects : List RailwayProject) (p : RailwayProject)
    (ps : List RailwayProject) :
    (pyLower p.name = pyLower repo_name →
      findRailwayProject (p :: ps) repo_name = some p)
    ∧ (pyLower p.name ≠ pyLower repo_name →
      findRailwayProject (p :: ps) repo_name = findRailwayProject ps repo_name)
    ∧ (findRailwayProject projects repo_name = none →
      analyze_repo fetch_logs repo_name projects =
        { repo_name := repo_name
          status := DeploymentStatus.unknown
          issues := [no_railway_project_issue]
          logs_preview := ("No Railway project found").toList })
    ∧ findRailwayProject [{ name := "myapp" }] "MyApp" = some { name := "myapp" }
    ∧ findRailwayProject [{ name := "MYAPP", id := some "1" },
        { name := "myapp", id := some "2" }] "MyApp" =
        some { name := "MYAPP", id := some "1" }
    ∧ no_railway_project_issue.type = "no_railway_project"
    ∧ no_railway_project_issue.severity = "info" := by
  refine ⟨?_, ?_, ?_, by decide, by decide, rfl, rfl⟩
  · intro h
    unfold findRailwayProject
    exact List.find?_cons_of_pos ps (by simp [h])
  · intro h
    unfold findRailwayProject
    exact List.find?_cons_of_neg ps (by simp [h])
  · intro h
    unfold analyze_repo
    rw [h]

/-- Witness for C6 at the concrete unmatched subject `api-service`. -/
theorem claim_C6_witness :
    analyze_repo (fun _ _ => []) "api-service" [] =
      { repo_name := "api-service"
        status := DeploymentStatus.unknown
        issues := [no_railway_project_issue]
        logs_preview := ("No Railway project found").toList } :=
  (claim_C6 (fun _ _ => []) "api-service" [] { name := "x" } []).2.2.1 rfl

/-- Claim C8: for a matched subject the log excerpt equals the full log
text when it has at most 500 characters, and otherwise exactly the first
500 characters followed by `"..."`. -/
theorem claim_C8 (fetch_logs : String → Option String → List Char)
    (repo_name : String) (projects : List RailwayProject) (proj : RailwayProject)
    (hfind : findRailwayProject projects repo_name = some proj) :
    ((fetch_logs proj.name proj.id).length ≤ 500 →
      (analyze_repo fetch_logs repo_name projects).logs_preview =
        fetch_logs proj.name proj.id)
    ∧ (500 < (fetch_logs proj.name proj.id).length →
      (analyze_repo fetch_logs repo_name projects).logs_preview =
        (fetch_logs proj.name proj.id).take 500 ++ ("...").toList
      ∧ ((fetch_logs proj.name proj.id).take 500).length = 500) := by
  unfold analyze_repo
  rw [hfind]
  constructor
  · intro hle
    simp only
    rw [if_neg (by omega)]
  · intro hgt
    refine ⟨?_, ?_⟩
    · simp only
      rw [if_pos (by omega)]
    · rw [List.length_take]
      omega

/-- Witness for C8 at a matched subject with a 501-character log. -/
theorem claim_C8_witness :
    (analyze_repo (fun _ _ => List.replicate 501 'x') "a" [{ name := "a" }]).logs_preview =
      List.replicate 500 'x' ++ ("...").toList := by
  have h := (claim_C8 (fun _ _ => List.replicate 501 'x') "a" [{ name := "a" }]
    { name := "a" } (by decide)).2 (by simp only [List.length_replicate]; omega)
  rw [h.1]
  simp only [List.take_replicate]
  norm_num

/-- Claim C2: on non-empty, non-whitespace-only text in which no catalog
signature matches, the classifier returns zero issues when the lowered
text contains one of the five success phrases, and exactly the single
`unknown_failure` issue of severity warning when it contains none. -/
theorem claim_C2 (logs : List Char) (repo_name : String)
    (hne : ¬ (logs = [] ∨ pyStrip logs = []))
    (hnm : ∀ p ∈ failure_patterns, ∀ pat ∈ p.2.patterns,
        searchPat pat (logs.map Char.toLower) = false) :
    ((∃ s ∈ success_indicators, containsSub (logs.map Char.toLower) s.toList = true) →
      analyze_logs logs repo_name = [])
    ∧ ((∀ s ∈ success_indicators, containsSub (logs.map Char.toLower) s.toList = false) →
      analyze_logs logs repo_name = [unknown_failure_issue])
    ∧ unknown_failure_issue.type = "unknown_failure"
    ∧ unknown_failure_issue.severity = "warning" := by
  have hcat : catalogIssuesWith failure_patterns logs = [] := by
    unfold catalogIssuesWith
    rw [List.filterMap_eq_nil_iff]
    intro p hp
    rw [Option.map_eq_none', List.find?_eq_none]
    intro pat hpat
    simp [hnm p hp pat hpat]
  rw [analyze_logs_eq logs repo_name hne, hcat]
  refine ⟨?_, ?_, rfl, rfl⟩
  · rintro ⟨s, hs, hc⟩
    have hcond : ¬ (hasSuccessWith success_indicators (logs.map Char.toLower) = false
        ∧ ([] : List DeploymentIssue) = []) := by
      rintro ⟨hfalse, _⟩
      have ht : hasSuccessWith success_indicators (logs.map Char.toLower) = true := by
        unfold hasSuccessWith
        rw [List.any_eq_true]
        exact ⟨s, hs, hc⟩
      rw [ht] at hfalse
      cases hfalse
    rw [if_neg hcond]
  · intro hno
    have hcond : hasSuccessWith success_indicators (logs.map Char.toLower) = false
        ∧ ([] : List DeploymentIssue) = [] := by
      refine ⟨?_, rfl⟩
      unfold hasSuccessWith
      rw [List.any_eq_false]
      intro s hs
      simpa [String.toList] using hno s hs
    rw [if_pos hcond]
    rfl

/-- Witness for C2: `"deployment successful"` (a success phrase, no
catalog match) yields zero issues; `"all quiet here"` (no success
phrase, no catalog match) yields exactly the `unknown_failure` issue. -/
theorem claim_C2_witness :
    analyze_logs ("deployment successful".toList) "svc" = []
    ∧ analyze_logs ("all quiet here".toList) "svc" = [unknown_failure_issue] := by
  constructor
  · exact (claim_C2 ("deployment successful".toList) "svc" (by decide) (by decide)).1
      ⟨"deployment successful", by decide, by decide⟩
  · exact (claim_C2 ("all quiet here".toList) "svc" (by decide) (by decide)).2.1
      (by decide)

/-- Claim C3: (a) every classifier result contains at most one issue per
failure category; (b) within a category the first listed signature that
matches the lowered text determines the emitted issue (the later
signatures of that category play no role); (c) when the categories with
a matching signature are exactly two, the result is exactly two issues,
one per category in catalog order, each carrying that category's
severity and remediation verbatim. -/
theorem claim_C3 (logs : List Char) (name : String) :
    (∀ c, ((analyze_logs logs name).filter fun i => i.type == c).length ≤ 1)
    ∧ (∀ c cfg pre pat post, ¬ (logs = [] ∨ pyStrip logs = []) →
        (c, cfg) ∈ failure_patterns →
        cfg.patterns = pre ++ pat :: post →
        (∀ q ∈ pre, searchPat q (logs.map Char.toLower) = false) →
        searchPat pat (logs.map Char.toLower) = true →
        ∀ i ∈ analyze_logs logs name, i.type = c → i = mkCatalogIssue c cfg pat logs)
    ∧ (∀ c1 cfg1 p1 c2 cfg2 p2, ¬ (logs = [] ∨ pyStrip logs = []) →
        (failure_patterns.filter fun p => p.2.patterns.any fun q =>
            searchPat q (logs.map Char.toLower)) = [(c1, cfg1), (c2, cfg2)] →
        cfg1.patterns.find? (fun q => searchPat q (logs.map Char.toLower)) = some p1 →
        cfg2.patterns.find? (fun q => searchPat q (logs.map Char.toLower)) = some p2 →
        analyze_logs logs name =
          [mkCatalogIssue c1 cfg1 p1 logs, mkCatalogIssue c2 cfg2 p2 logs]
        ∧ (mkCatalogIssue c1 cfg1 p1 logs).severity = cfg1.severity
        ∧ (mkCatalogIssue c1 cfg1 p1 logs).remediation = cfg1.remediation
        ∧ (mkCatalogIssue c2 cfg2 p2 logs).severity = cfg2.severity
        ∧ (mkCatalogIssue c2 cfg2 p2 logs).remediation = cfg2.remediation) := by
  refine ⟨?_, ?_, ?_⟩
  · intro c
    by_cases hws : logs = [] ∨ pyStrip logs = []
    · unfold analyze_logs analyzeLogsWith
      rw [if_pos hws]
      exact filter_singleton_length_le _ _
    · rw [analyze_logs_eq logs name hws]
      by_cases hcond : hasSuccessWith success_indicators (logs.map Char.toLower) = false
          ∧ catalogIssuesWith failure_patterns logs = []
      · rw [if_pos hcond, hcond.2]
        exact filter_singleton_length_le _ _
      · rw [if_neg hcond]
        refine le_trans (catalogIssues_filter_le logs c failure_patterns) ?_
        have hnd : (failure_patterns.map Prod.fst).Nodup := by decide
        have := List.nodup_iff_count_le_one.mp hnd c
        rw [List.count, List.countP_eq_length_filter] at this
        exact this
  · intro c cfg pre pat post hws hmem hsplit hpre hpat i hi htype
    have hfind : cfg.patterns.find? (fun q => searchPat q (logs.map Char.toLower))
        = some pat := by
      rw [hsplit]
      exact find?_pre_first _ pre pat post hpre hpat
    have hmemcat : mkCatalogIssue c cfg pat logs ∈ catalogIssuesWith failure_patterns logs := by
      unfold catalogIssuesWith
      rw [List.mem_filterMap]
      exact ⟨(c, cfg), hmem, by rw [hfind]; rfl⟩
    rw [analyze_logs_eq logs name hws] at hi
    have hne : catalogIssuesWith failure_patterns logs ≠ [] := by
      intro h0
      rw [h0] at hmemcat
      cases hmemcat
    have hcond : ¬ (hasSuccessWith success_indicators (logs.map Char.toLower) = false
        ∧ catalogIssuesWith failure_patterns logs = []) := by
      rintro ⟨_, h0⟩
      exact hne h0
    rw [if_neg hcond] at hi
    unfold catalogIssuesWith at hi
    rw [List.mem_filterMap] at hi
    obtain ⟨⟨c2, cfg2⟩, hp2, heq⟩ := hi
    rw [Option.map_eq_some'] at heq
    obtain ⟨pat2, hfind2, hi2⟩ := heq
    have hc2 : c2 = c := by
      rw [← hi2] at htype
      exact htype
    rw [hc2] at hp2 hfind2
    have hcfg : cfg2 = cfg := by
      have hnd : (failure_patterns.map Prod.fst).Nodup := by decide
      exact keys_nodup_unique failure_patterns c cfg2 cfg hnd hp2 hmem
    rw [hcfg] at hfind2
    rw [hfind] at hfind2
    injection hfind2 with hpp
    rw [← hi2, hc2, hcfg, hpp]
  · intro c1 cfg1 p1 c2 cfg2 p2 hws hfilter hf1 hf2
    refine ⟨?_, rfl, rfl, rfl, rfl⟩
    have hcat : catalogIssuesWith failure_patterns logs =
        [mkCatalogIssue c1 cfg1 p1 logs, mkCatalogIssue c2 cfg2 p2 logs] := by
      rw [catalogIssuesWith_eq_filter logs failure_patterns, hfilter]
      rw [List.filterMap_cons, List.filterMap_cons]
      simp only [hf1, hf2, Option.map_some', List.filterMap_nil]
    rw [analyze_logs_eq logs name hws, hcat]
    rw [if_neg]
    rintro ⟨_, h0⟩
    cases h0

/-- Witness for C3 (conjunct (c)) at a concrete log text matching
exactly the two categories `missing_env_vars` and
`database_connection`. -/
theorem claim_C3_witness :
    analyze_logs ("Error: DATABASE_URL not found\nError: connection refused".toList) "svc" =
      [mkCatalogIssue "missing_env_vars" missing_env_vars_config
          ["DATABASE_URL", "not found"]
          ("Error: DATABASE_URL not found\nError: connection refused".toList),
        mkCatalogIssue "database_connection" database_connection_config
          ["connection", "refused"]
          ("Error: DATABASE_URL not found\nError: connection refused".toList)] :=
  ((claim_C3 ("Error: DATABASE_URL not found\nError: connection refused".toList) "svc").2.2
    "missing_env_vars" missing_env_vars_config ["DATABASE_URL", "not found"]
    "database_connection" database_connection_config ["connection", "refused"]
    (by decide) (by decide) (by decide) (by decide)).1

/-- Witness for C4 at the concrete lists `[]` and `[no_logs_issue]`. -/
theorem claim_C4_witness :
    deriveStatus [] = DeploymentStatus.success
    ∧ deriveStatus [no_logs_issue] = DeploymentStatus.pending :=
  ⟨claim_C4.1 [] (Or.inl rfl), claim_C4.2.2.1 [no_logs_issue] (by decide) (by decide)⟩
